import Mathlib

/-!
# Verification of the gold-news-feed scripts

Shallow embedding of the two batch scripts of the repository,
`update_macro_signal.py` and `update_news_calendar.py`, together with
theorems settling the specification claims about them.

Modelling conventions:
* Timestamps are UTC minutes since the Unix epoch, as `Nat`.  The calendar
  CSV's `datetime` column has fixed zero-padded format `YYYY-MM-DD HH:MM`,
  so lexicographic string order coincides with chronological order and a
  numeric key is faithful for sorting and window comparisons.
* Prices, changes, thresholds and sentiment scores are `ℚ`.  Where the
  Python code divides two numpy `float64` values (which yields `inf`/`nan`
  on a zero divisor instead of raising `ZeroDivisionError`), the result is
  modelled by the extended type `FV` below with the IEEE-754 special
  values, so that the behaviour at a zero first price is captured exactly.
* A `none` input stands for a caught exception on the corresponding
  fetch/parse (the scripts wrap each such call in `try/except`).
-/

namespace GoldNewsFeed

/-- An extended numeric value: a finite rational, `+inf`, `-inf`, or `nan`.
Models the possible values of the numpy `float64` arithmetic in
`get_yf_signal` (`(last - first) / first`), where dividing a nonzero value
by zero yields a signed infinity and `0/0` yields `nan`, with no exception
raised. -/
inductive FV where
  | fin (q : ℚ)
  | inf
  | neginf
  | nan
deriving DecidableEq, Repr

namespace FV

/-- IEEE-754 subtraction on extended values (finite arithmetic is exact in
this model; the script only ever subtracts two finite closing prices). -/
def sub : FV → FV → FV
  | fin a, fin b => fin (a - b)
  | fin _, inf => neginf
  | fin _, neginf => inf
  | inf, fin _ => inf
  | inf, neginf => inf
  | neginf, fin _ => neginf
  | neginf, inf => neginf
  | inf, inf => nan
  | neginf, neginf => nan
  | nan, _ => nan
  | _, nan => nan

/-- IEEE-754 division on extended values: a nonzero finite value divided by
zero is a signed infinity, `0/0` is `nan` (numpy warns but does not raise). -/
def div : FV → FV → FV
  | fin a, fin b =>
      if b = 0 then
        if a = 0 then nan else if 0 < a then inf else neginf
      else fin (a / b)
  | fin _, inf => fin 0
  | fin _, neginf => fin 0
  | inf, fin b => if b < 0 then neginf else inf
  | neginf, fin b => if b < 0 then inf else neginf
  | inf, inf => nan
  | inf, neginf => nan
  | neginf, inf => nan
  | neginf, neginf => nan
  | nan, _ => nan
  | _, nan => nan

/-- Comparison `x >= t` for an extended value against a finite threshold:
`+inf` compares greater than everything, `nan` compares false. -/
def ge (x : FV) (t : ℚ) : Bool :=
  match x with
  | fin a => t ≤ a
  | inf => true
  | neginf => false
  | nan => false

/-- Comparison `x <= t` for an extended value against a finite threshold. -/
def le (x : FV) (t : ℚ) : Bool :=
  match x with
  | fin a => a ≤ t
  | inf => false
  | neginf => true
  | nan => false

end FV

/-! ## `update_macro_signal.py` -/

/-- Constant `HIGH_IMPACT_WINDOW_HOURS = 6` of `update_macro_signal.py`. -/
def HIGH_IMPACT_WINDOW_HOURS : Nat := 6

/-- One headline as consumed by `aggregate_headline_sentiment`: its VADER
compound `score`, and `ageHours = (now - published) / 3600` when the ISO
timestamp parses (`none` models the `except` branch that uses weight 0.5).
The title itself plays no role in the aggregate. -/
structure Headline where
  score : ℚ
  ageHours : Option ℚ
deriving DecidableEq, Repr

/-- The recency weight of one headline inside
`aggregate_headline_sentiment`: `1 / (1 + max(0.1, age_hours))` on a parsed
timestamp, `0.5` on a parse failure. -/
def headlineWeight (h : Headline) : ℚ :=
  match h.ageHours with
  | some a => 1 / (1 + max (1/10) a)
  | none => 1/2

/-- The `weight_total` accumulated by the loop of
`aggregate_headline_sentiment`. -/
def weightTotal (hs : List Headline) : ℚ :=
  (hs.map headlineWeight).sum

/-- The `weighted_sum` accumulated by the loop of
`aggregate_headline_sentiment`. -/
def weightedSum (hs : List Headline) : ℚ :=
  (hs.map (fun h => h.score * headlineWeight h)).sum

/-- Function `aggregate_headline_sentiment(headlines)`: returns `0.0` on an empty
list, otherwise the recency-weighted average of the scores clamped to
`[-1, 1]` by `max(-1.0, min(1.0, agg))`. -/
def aggregate_headline_sentiment (hs : List Headline) : ℚ :=
  if hs = [] then 0
  else max (-1) (min 1 (weightedSum hs / weightTotal hs))

/-- Function `get_yf_signal(ticker, lookback_days)`: `hist` is the fetched list of
closing prices (`none` models a raised-and-caught yfinance exception, which
returns `0.0`).  Fewer than 2 points returns `0.0`; otherwise the change
`(last - first) / first` computed in numpy `float64` arithmetic, which on
`first = 0` yields an infinity or `nan` rather than raising. -/
def get_yf_signal (hist : Option (List ℚ)) : FV :=
  match hist with
  | none => FV.fin 0
  | some h =>
      if h.length < 2 then FV.fin 0
      else FV.div (FV.sub (FV.fin (h.getLastD 0)) (FV.fin (h.headD 0))) (FV.fin (h.headD 0))

/-- Function `discrete_signal_from_change(change, threshold_up, threshold_down)`:
`1` when `change >= threshold_up`, else `-1` when
`change <= threshold_down`, else `0`. -/
def discrete_signal_from_change (change : FV) (threshold_up threshold_down : ℚ) : Int :=
  if FV.ge change threshold_up then 1
  else if FV.le change threshold_down then -1
  else 0

/-- One parsed row of `news_calendar.csv` as loaded by
`detect_high_impact_event`: `datetime` is `none` when the cell fails to
parse (pandas `NaT`, subsequently dropped by `dropna`), otherwise UTC
minutes.  `impact`, `currency` and `title` are carried but never consulted
by the detection code. -/
structure CalRow where
  datetime : Option Nat
  impact : String
  currency : String
  title : String
deriving DecidableEq, Repr

/-- Function `detect_high_impact_event()`: `calendar = none` models a missing
`news_calendar.csv` or a raised-and-caught read/parse exception (both
return `0`).  Otherwise rows with unparseable datetimes are dropped and the
flag is `1` exactly when some remaining datetime lies in
`[now, now + 6 hours]`.  No filter on `impact` or `currency` is applied. -/
def detect_high_impact_event (calendar : Option (List CalRow)) (now : Nat) : Nat :=
  match calendar with
  | none => 0
  | some rows =>
      let windowEnd := now + HIGH_IMPACT_WINDOW_HOURS * 60
      let upcoming := (rows.filterMap (fun r => r.datetime)).filter
        (fun d => decide (now ≤ d) && decide (d ≤ windowEnd))
      if 0 < upcoming.length then 1 else 0

/-- The UTC hour of a minutes-since-epoch timestamp. -/
def hourOfMinutes (m : Nat) : Nat := m / 60 % 24

/-- The single row written to `macro_signal.csv` by `main()`:
`timestamp,news_sentiment,dxy_signal,vix_signal,gold_bias,high_impact_event`. -/
structure OutputRow where
  timestamp : Nat
  news_sentiment : ℚ
  dxy_signal : Int
  vix_signal : Int
  gold_signal : Int
  high_impact_event : Nat
deriving DecidableEq, Repr

/-- Function `main()` of `update_macro_signal.py` up to the single-row write: each
ticker's history is fetched independently (`none` = that fetch raised and
was caught), classified with its inline thresholds
(DXY `±0.003`, VIX `±0.06`, gold `±0.005`), and combined with the headline
aggregate and the calendar flag into the one output row. -/
def main_row (headlines : List Headline) (dxyHist vixHist goldHist : Option (List ℚ))
    (calendar : Option (List CalRow)) (now : Nat) : OutputRow :=
  { timestamp := now
    news_sentiment := aggregate_headline_sentiment headlines
    dxy_signal := discrete_signal_from_change (get_yf_signal dxyHist) (3/1000) (-(3/1000))
    vix_signal := discrete_signal_from_change (get_yf_signal vixHist) (6/100) (-(6/100))
    gold_signal := discrete_signal_from_change (get_yf_signal goldHist) (5/1000) (-(5/1000))
    high_impact_event := detect_high_impact_event calendar now }

/-- The numeric fields of the persisted row, in file order. -/
def rowFields (r : OutputRow) : List ℚ :=
  [(r.timestamp : ℚ), r.news_sentiment, (r.dxy_signal : ℚ), (r.vix_signal : ℚ),
    (r.gold_signal : ℚ), (r.high_impact_event : ℚ)]

/-! ## `update_news_calendar.py` -/

/-- Constant `SKIP_DAYS = \x7b5, 6\x7d` (Saturday, Sunday in Python `weekday()` numbering). -/
def SKIP_DAYS : List Nat := [5, 6]

/-- Constant `MIN_REQUEST_HOUR = 2`. -/
def MIN_REQUEST_HOUR : Nat := 2

/-- Constant `EVENT_DURATION_MINUTES = 30`. -/
def EVENT_DURATION_MINUTES : Nat := 30

/-- Python `weekday()` (Monday = 0) of a minutes-since-epoch timestamp:
1970-01-01 was a Thursday, weekday 3. -/
def weekdayOfMinutes (m : Nat) : Nat := (m / 1440 + 3) % 7

/-- One event row of the calendar pipeline
(`[date_time, impact, country, title]` as built by `fetch_news` and
`get_upcoming_holidays`): `datetime = none` models the empty string
written when the feed item had no date or time (every non-empty value has
the fixed parseable format `YYYY-MM-DD HH:MM`, kept here as UTC minutes). -/
structure EventRow where
  datetime : Option Nat
  impact : String
  currency : String
  title : String
deriving DecidableEq, Repr

/-- The comparison `sort_values("datetime")` sorts by: lexicographic order
on the fixed-width datetime strings, which is `≤` on the parsed minutes
with the empty string least. -/
def dtLe : Option Nat → Option Nat → Bool
  | none, _ => true
  | some _, none => false
  | some a, some b => a ≤ b

/-- The `drop_duplicates(subset=["datetime", "title"])` key of a row. -/
def eventKey (e : EventRow) : Option Nat × String := (e.datetime, e.title)

/-- Keep-first deduplication by a key, as pandas
`drop_duplicates(subset=...)` does: the first row with each key survives in
order, every later row with an already-seen key is dropped. -/
def dedupByKey {α β : Type} [DecidableEq β] (key : α → β) : List α → List α
  | [] => []
  | x :: xs => x :: dedupByKey key (xs.filter fun y => decide (key y ≠ key x))
termination_by l => l.length
decreasing_by
  simp only [List.length_cons]
  exact Nat.lt_succ_of_le (List.length_filter_le _ _)

/-- Function `filter_future_events(events)`: a row whose datetime failed to parse is
kept (the `except` safety fallback); a bank-holiday row (the bank emoji —
a single character, so Python's substring test is character membership —
occurs in the title) is kept when its calendar date is today or later; any
other row is kept while `event_time + 30 minutes >= now`. -/
def filter_future_events (now : Nat) (events : List EventRow) : List EventRow :=
  events.filter fun e =>
    match e.datetime with
    | none => true
    | some dt =>
        if e.title.toList.contains '🏦' then decide (now / 1440 ≤ dt / 1440)
        else decide (now ≤ dt + EVENT_DURATION_MINUTES)

/-- Function `update_news_calendar()` as a function of the run's inputs, returning
`none` when the function returns without touching the CSV and
`some rows` when it overwrites the CSV with exactly `rows`:
skip on a weekend, skip before 02:00 UTC, skip when fetch plus holiday
merge yields nothing; otherwise drop past events, and either clear the file
or persist the events sorted by datetime with `(datetime, title)`
duplicates dropped. -/
def update_news_calendar (now : Nat) (fetched holidays : List EventRow) :
    Option (List EventRow) :=
  if weekdayOfMinutes now ∈ SKIP_DAYS then none
  else if hourOfMinutes now < MIN_REQUEST_HOUR then none
  else
    let events := fetched ++ holidays
    if events = [] then none
    else
      let future := filter_future_events now events
      if future = [] then some []
      else some (dedupByKey eventKey (future.mergeSort fun a b => dtLe a.datetime b.datetime))

/-- The state of `news_calendar.csv` after a run: unchanged when
`update_news_calendar` returns early, otherwise replaced wholesale. -/
def run_update (old : List EventRow) (now : Nat) (fetched holidays : List EventRow) :
    List EventRow :=
  match update_news_calendar now fetched holidays with
  | none => old
  | some rows => rows

/-! ## Helper lemmas -/

/-- Lemma input: `dedupByKey` only drops rows: its output is a sublist of its input. -/
theorem dedupByKey_sublist {α β : Type} [DecidableEq β] (key : α → β) :
    ∀ l : List α, List.Sublist (dedupByKey key l) l
  | [] => by simp [dedupByKey]
  | x :: xs => by
    simp only [dedupByKey]
    exact ((dedupByKey_sublist key _).trans (List.filter_sublist xs)).cons₂ x
termination_by l => l.length
decreasing_by
  simp only [List.length_cons]
  exact Nat.lt_succ_of_le (List.length_filter_le _ _)

/-- After `dedupByKey`, no two remaining rows share a key. -/
theorem dedupByKey_pairwise_ne {α β : Type} [DecidableEq β] (key : α → β) :
    ∀ l : List α, (dedupByKey key l).Pairwise fun a b => key a ≠ key b
  | [] => by simp [dedupByKey]
  | x :: xs => by
    simp only [dedupByKey]
    refine List.Pairwise.cons ?_ (dedupByKey_pairwise_ne key _)
    intro b hb
    have hb2 : b ∈ xs.filter fun y => decide (key y ≠ key x) :=
      (dedupByKey_sublist key _).subset hb
    have hne : key b ≠ key x := by simpa using (List.mem_filter.mp hb2).2
    exact Ne.symm hne
termination_by l => l.length
decreasing_by
  simp only [List.length_cons]
  exact Nat.lt_succ_of_le (List.length_filter_le _ _)

/-- Every key of the input survives `dedupByKey` on some remaining row. -/
theorem dedupByKey_key_mem {α β : Type} [DecidableEq β] (key : α → β) :
    ∀ l : List α, ∀ e ∈ l, ∃ f ∈ dedupByKey key l, key f = key e
  | [] => by simp
  | x :: xs => by
    intro e he
    simp only [dedupByKey]
    rcases List.mem_cons.mp he with rfl | hxs
    · exact ⟨e, List.mem_cons_self _ _, rfl⟩
    · by_cases hk : key e = key x
      · exact ⟨x, List.mem_cons_self _ _, hk.symm⟩
      · obtain ⟨f, hf, hkf⟩ := dedupByKey_key_mem key
          (xs.filter fun y => decide (key y ≠ key x)) e
          (List.mem_filter.mpr ⟨hxs, by simpa using hk⟩)
        exact ⟨f, List.mem_cons_of_mem _ hf, hkf⟩
termination_by l => l.length
decreasing_by
  simp only [List.length_cons]
  exact Nat.lt_succ_of_le (List.length_filter_le _ _)

/-- The datetime-string comparison is transitive. -/
theorem dtLe_trans : ∀ x y z : Option Nat,
    dtLe x y = true → dtLe y z = true → dtLe x z = true := by
  intro x y z
  cases x <;> cases y <;> cases z <;> simp [dtLe] <;> omega

/-- The datetime-string comparison is total. -/
theorem dtLe_total : ∀ x y : Option Nat, (dtLe x y || dtLe y x) = true := by
  intro x y
  cases x <;> cases y <;> simp [dtLe] <;> omega

/-- The flag of `detect_high_impact_event` is `1` exactly when some parsed
calendar datetime lies in the closed window `[now, now + 6h]`. -/
theorem detect_eq_one_iff (rows : List CalRow) (now : Nat) :
    detect_high_impact_event (some rows) now = 1 ↔
      ∃ r ∈ rows, ∃ d, r.datetime = some d ∧ now ≤ d ∧ d ≤ now + 360 := by
  simp only [detect_high_impact_event, HIGH_IMPACT_WINDOW_HOURS]
  constructor
  · intro h
    by_cases hl : 0 < (((rows.filterMap fun r => r.datetime).filter
        fun d => decide (now ≤ d) && decide (d ≤ now + 6 * 60))).length
    · obtain ⟨d, hd⟩ := List.exists_mem_of_length_pos hl
      have hd2 := List.mem_filter.mp hd
      obtain ⟨r, hr, hrd⟩ := List.mem_filterMap.mp hd2.1
      refine ⟨r, hr, d, hrd, ?_, ?_⟩
      · have := hd2.2
        simp at this
        omega
      · have := hd2.2
        simp at this
        omega
    · simp [hl] at h
  · rintro ⟨r, hr, d, hrd, h1, h2⟩
    have hd : d ∈ (rows.filterMap fun r => r.datetime).filter
        fun d => decide (now ≤ d) && decide (d ≤ now + 6 * 60) := by
      refine List.mem_filter.mpr ⟨List.mem_filterMap.mpr ⟨r, hr, hrd⟩, ?_⟩
      simp
      omega
    have : 0 < (((rows.filterMap fun r => r.datetime).filter
        fun d => decide (now ≤ d) && decide (d ≤ now + 6 * 60))).length :=
      List.length_pos.mpr (List.ne_nil_of_mem hd)
    simp [this]

/-- The function `detect_high_impact_event` only ever returns `0` or `1`. -/
theorem detect_zero_or_one (calendar : Option (List CalRow)) (now : Nat) :
    detect_high_impact_event calendar now = 0 ∨ detect_high_impact_event calendar now = 1 := by
  cases calendar with
  | none => exact Or.inl rfl
  | some rows =>
    simp only [detect_high_impact_event]
    split
    · exact Or.inr rfl
    · exact Or.inl rfl

/-! ## Claim theorems -/

/-- C1 counterexample: at UTC hour 12 (timestamp 720 minutes) with an empty
calendar, `detect_high_impact_event` — the sole source of the impact flag —
returns `0`, refuting the claim that the flag is `1` at hours 12–15
regardless of calendar contents: the script has no time-of-day rule. -/
theorem hour_twelve_without_event_flag_zero :
    hourOfMinutes 720 = 12 ∧ detect_high_impact_event (some []) 720 = 0 :=
  ⟨rfl, rfl⟩

/-- C1 (amended): the impact flag is produced by the calendar-proximity
rule alone; there is no time-of-day rule.  At every UTC instant — hours
12–15 included — the flag is `0` whenever no calendar datetime lies within
`[now, now + 6h]`, and it is `0` whenever the calendar is absent. -/
theorem impact_flag_no_time_rule (now : Nat) (rows : List CalRow)
    (h : ∀ d ∈ rows.filterMap fun r => r.datetime, ¬(now ≤ d ∧ d ≤ now + 360)) :
    detect_high_impact_event (some rows) now = 0 ∧
    detect_high_impact_event none now = 0 := by
  refine ⟨?_, rfl⟩
  rcases detect_zero_or_one (some rows) now with h0 | h1
  · exact h0
  · exfalso
    obtain ⟨r, hr, d, hrd, h1, h2⟩ := (detect_eq_one_iff rows now).mp h1
    exact h d (List.mem_filterMap.mpr ⟨r, hr, hrd⟩) ⟨h1, h2⟩

/-- C1 witness: a run at UTC hour 12 whose only calendar event lies outside
the 6-hour window has flag `0`. -/
theorem impact_flag_no_time_rule_witness :
    detect_high_impact_event (some [⟨some 100, "High", "USD", "CPI"⟩]) 720 = 0 ∧
    detect_high_impact_event none 720 = 0 :=
  impact_flag_no_time_rule 720 [⟨some 100, "High", "USD", "CPI"⟩] (by decide)

/-- C3 counterexample: an event 1 hour ahead whose currency is `EUR` (not
the `USD` target) and whose impact is `Low` (not in any accepted set) still
sets the flag to `1`: `detect_high_impact_event` applies no currency or
impact filter, refuting the claimed if-and-only-if characterisation. -/
theorem nonmatching_event_sets_flag :
    detect_high_impact_event (some [⟨some 60, "Low", "EUR", "GDP"⟩]) 0 = 1 :=
  rfl

/-- C3 (amended): the calendar-proximity rule sets the flag to `1` iff some
calendar event — regardless of its currency or impact level — has a
datetime within `[now, now + 6h]`; in particular an event at `now + 5h59m`
yields flag `1` and an event at `now + 6h01m` yields flag `0`, whatever its
currency and impact. -/
theorem calendar_window_iff (now : Nat) (rows : List CalRow)
    (impact currency title : String) :
    (detect_high_impact_event (some rows) now = 1 ↔
      ∃ r ∈ rows, ∃ d, r.datetime = some d ∧ now ≤ d ∧ d ≤ now + 360) ∧
    detect_high_impact_event (some [⟨some (now + 359), impact, currency, title⟩]) now = 1 ∧
    detect_high_impact_event (some [⟨some (now + 361), impact, currency, title⟩]) now = 0 := by
  refine ⟨detect_eq_one_iff rows now, ?_, ?_⟩
  · exact (detect_eq_one_iff _ _).mpr
      ⟨_, List.mem_cons_self _ _, now + 359, rfl, by omega, by omega⟩
  · rcases detect_zero_or_one (some [⟨some (now + 361), impact, currency, title⟩]) now
      with h0 | h1
    · exact h0
    · exfalso
      obtain ⟨r, hr, d, hrd, hd1, hd2⟩ := (detect_eq_one_iff _ _).mp h1
      rcases List.mem_cons.mp hr with rfl | hr2
      · have hdd : now + 361 = d := by simpa using hrd
        omega
      · simp at hr2

/-- C7: when `news_calendar.csv` is missing or unreadable (`none`), and
likewise when it holds no parseable events, `detect_high_impact_event`
contributes `0` to the impact flag; as a total Lean function it cannot
raise or abort (the script's `except` branch is the `none` case). -/
theorem missing_calendar_degrades_to_zero (now : Nat) :
    detect_high_impact_event none now = 0 ∧
    detect_high_impact_event (some []) now = 0 :=
  ⟨rfl, rfl⟩

/-- C4: threshold classification is inclusive at both boundaries
(`>=`/`<=`): a change exactly at `threshold_up` is classified `1`, exactly
at `threshold_down` is classified `-1`, and every strictly interior change
is classified `0`. -/
theorem threshold_boundary_inclusive (tu td : ℚ) (h : td < tu) :
    discrete_signal_from_change (FV.fin tu) tu td = 1 ∧
    discrete_signal_from_change (FV.fin td) tu td = -1 ∧
    ∀ r : ℚ, td < r → r < tu →
      discrete_signal_from_change (FV.fin r) tu td = 0 := by
  refine ⟨?_, ?_, ?_⟩
  · simp [discrete_signal_from_change, FV.ge]
  · have h1 : ¬ tu ≤ td := not_le.mpr h
    simp [discrete_signal_from_change, FV.ge, FV.le, h1]
  · intro r h1 h2
    have h3 : ¬ tu ≤ r := not_le.mpr h2
    have h4 : ¬ r ≤ td := not_le.mpr h1
    simp [discrete_signal_from_change, FV.ge, FV.le, h3, h4]

/-- C4 witness: the DXY thresholds `±0.003` at their exact boundary values
and at the interior change `0`. -/
theorem threshold_boundary_inclusive_witness :
    discrete_signal_from_change (FV.fin (3/1000)) (3/1000) (-(3/1000)) = 1 ∧
    discrete_signal_from_change (FV.fin (-(3/1000))) (3/1000) (-(3/1000)) = -1 ∧
    ∀ r : ℚ, -(3/1000) < r → r < 3/1000 →
      discrete_signal_from_change (FV.fin r) (3/1000) (-(3/1000)) = 0 :=
  threshold_boundary_inclusive (3/1000) (-(3/1000)) (by norm_num)

/-- C6: on a two-point series whose first closing price is `0`,
`get_yf_signal` does not fall back to `0`: the numpy division yields `+inf`
(no exception is raised for the `except` branch to catch), and the
classifier then reports `+1`, not the claimed neutral `0`.  The
fewer-than-2-points half of the claim does hold: a one-point series yields
change `0` and signal `0`. -/
theorem zero_first_price_yields_nonzero_signal :
    get_yf_signal (some [(0 : ℚ), 5]) = FV.inf ∧
    discrete_signal_from_change (get_yf_signal (some [(0 : ℚ), 5]))
      (5/1000) (-(5/1000)) = 1 ∧
    get_yf_signal (some [(5 : ℚ)]) = FV.fin 0 ∧
    discrete_signal_from_change (get_yf_signal (some [(5 : ℚ)]))
      (5/1000) (-(5/1000)) = 0 := by
  have h1 : get_yf_signal (some [(0 : ℚ), 5]) = FV.inf := by
    norm_num [get_yf_signal, FV.sub, FV.div]
  have h2 : get_yf_signal (some [(5 : ℚ)]) = FV.fin 0 := rfl
  refine ⟨h1, ?_, h2, ?_⟩
  · rw [h1]
    rfl
  · rw [h2]
    norm_num [discrete_signal_from_change, FV.ge, FV.le]

/-- C2 counterexample: a run in which all three component signals are `1`
(sum `3`) persists a row whose fields are
`timestamp, news_sentiment, dxy_signal, vix_signal, gold_signal,
high_impact_event` — no field equals the component sum: `main` writes no
TotalScore field at all. -/
theorem no_total_score_field :
    (main_row [] (some [100, 110]) (some [10, 11]) (some [100, 101])
        none 720).dxy_signal +
      (main_row [] (some [100, 110]) (some [10, 11]) (some [100, 101])
        none 720).vix_signal +
      (main_row [] (some [100, 110]) (some [10, 11]) (some [100, 101])
        none 720).gold_signal = 3 ∧
    (3 : ℚ) ∉ rowFields (main_row [] (some [100, 110]) (some [10, 11])
      (some [100, 101]) none 720) := by
  have hd : get_yf_signal (some [(100 : ℚ), 110]) = FV.fin (1/10) := by
    norm_num [get_yf_signal, FV.sub, FV.div]
  have hv : get_yf_signal (some [(10 : ℚ), 11]) = FV.fin (1/10) := by
    norm_num [get_yf_signal, FV.sub, FV.div]
  have hg : get_yf_signal (some [(100 : ℚ), 101]) = FV.fin (1/100) := by
    norm_num [get_yf_signal, FV.sub, FV.div]
  constructor
  · simp only [main_row, hd, hv, hg]
    norm_num [discrete_signal_from_change, FV.ge, FV.le]
  · simp only [rowFields, main_row, hd, hv, hg]
    norm_num [discrete_signal_from_change, FV.ge, FV.le,
      aggregate_headline_sentiment, detect_high_impact_event]

/-- Each discrete signal lies in `{-1, 0, 1}`, hence in `[-1, 1]`. -/
theorem discrete_signal_bounds (c : FV) (tu td : ℚ) :
    -1 ≤ discrete_signal_from_change c tu td ∧
    discrete_signal_from_change c tu td ≤ 1 := by
  rw [discrete_signal_from_change]
  split
  · omega
  · split <;> omega

/-- C2 (amended): the persisted row carries no TotalScore field — its
fields are the timestamp, the news sentiment, the three component
DiscreteSignals and the impact flag — and the arithmetic sum of the three
component DiscreteSignals always lies in `[-3, 3]` for this 3-component
basket. -/
theorem component_sum_bounded (headlines : List Headline)
    (dxyHist vixHist goldHist : Option (List ℚ))
    (calendar : Option (List CalRow)) (now : Nat) :
    -3 ≤ (main_row headlines dxyHist vixHist goldHist calendar now).dxy_signal +
        (main_row headlines dxyHist vixHist goldHist calendar now).vix_signal +
        (main_row headlines dxyHist vixHist goldHist calendar now).gold_signal ∧
    (main_row headlines dxyHist vixHist goldHist calendar now).dxy_signal +
        (main_row headlines dxyHist vixHist goldHist calendar now).vix_signal +
        (main_row headlines dxyHist vixHist goldHist calendar now).gold_signal ≤ 3 := by
  have h1 := discrete_signal_bounds (get_yf_signal dxyHist) (3/1000) (-(3/1000))
  have h2 := discrete_signal_bounds (get_yf_signal vixHist) (6/100) (-(6/100))
  have h3 := discrete_signal_bounds (get_yf_signal goldHist) (5/1000) (-(5/1000))
  simp only [main_row] at h1 h2 h3 ⊢
  omega

/-- C5 counterexample: a run whose DXY fetch raised (history `none`) still
persists fresh nonzero VIX and gold signals — the error is absorbed per
instrument inside `get_yf_signal`, so the row mixes fallback zero and
fresh values instead of the claimed whole-basket all-zero substitution. -/
theorem fetch_error_still_mixed_row :
    (main_row [] none (some [10, 11]) (some [100, 101]) none 720).dxy_signal = 0 ∧
    (main_row [] none (some [10, 11]) (some [100, 101]) none 720).vix_signal = 1 ∧
    (main_row [] none (some [10, 11]) (some [100, 101]) none 720).gold_signal = 1 := by
  have hv : get_yf_signal (some [(10 : ℚ), 11]) = FV.fin (1/10) := by
    norm_num [get_yf_signal, FV.sub, FV.div]
  have hg : get_yf_signal (some [(100 : ℚ), 101]) = FV.fin (1/100) := by
    norm_num [get_yf_signal, FV.sub, FV.div]
  refine ⟨?_, ?_, ?_⟩ <;>
    simp only [main_row, hv, hg] <;>
    norm_num [get_yf_signal, discrete_signal_from_change, FV.ge, FV.le]

/-- C5 (amended): failure handling is per instrument, not whole-or-nothing:
a ticker whose fetch raised contributes change `0.0` and signal `0` for
that instrument alone, while every other field of the persisted row is
computed from its own inputs, unaffected by the failure. -/
theorem per_instrument_fallback (headlines : List Headline)
    (d v g d2 v2 g2 : Option (List ℚ))
    (calendar : Option (List CalRow)) (now : Nat) :
    (main_row headlines none v g calendar now).dxy_signal = 0 ∧
    (main_row headlines d none g calendar now).vix_signal = 0 ∧
    (main_row headlines d v none calendar now).gold_signal = 0 ∧
    (main_row headlines d v g calendar now).dxy_signal =
      (main_row headlines d v2 g2 calendar now).dxy_signal ∧
    (main_row headlines d v g calendar now).vix_signal =
      (main_row headlines d2 v g2 calendar now).vix_signal ∧
    (main_row headlines d v g calendar now).gold_signal =
      (main_row headlines d2 v2 g calendar now).gold_signal := by
  refine ⟨?_, ?_, ?_, rfl, rfl, rfl⟩ <;>
    norm_num [main_row, get_yf_signal, discrete_signal_from_change, FV.ge, FV.le]

/-- Every headline weight is strictly positive: `1/2` on a parse failure,
`1 / (1 + max(0.1, age))` with denominator at least `1.1` otherwise. -/
theorem headlineWeight_pos (h : Headline) : 0 < headlineWeight h := by
  rw [headlineWeight]
  rcases h.ageHours with _ | a
  · norm_num
  · have h1 : (1:ℚ)/10 ≤ max (1/10) a := le_max_left _ _
    have h2 : (0:ℚ) < 1 + max (1/10) a := by linarith
    exact div_pos one_pos h2

/-- The weight total of any headline list is nonnegative. -/
theorem weightTotal_nonneg (hs : List Headline) : 0 ≤ weightTotal hs := by
  refine List.sum_nonneg ?_
  intro x hx
  obtain ⟨h, _, rfl⟩ := List.mem_map.mp hx
  exact (headlineWeight_pos h).le

/-- C10: the headline sentiment aggregate is exactly `0` on an empty list;
on every list it lies in `[-1, 1]` (the clamp `max(-1, min(1, ·))`), and on
every non-empty list the recency weights summed in the denominator are
strictly positive. -/
theorem sentiment_aggregate_bounds :
    aggregate_headline_sentiment [] = 0 ∧
    ∀ hs : List Headline,
      (-1 ≤ aggregate_headline_sentiment hs ∧
        aggregate_headline_sentiment hs ≤ 1) ∧
      (hs ≠ [] → 0 < weightTotal hs) := by
  refine ⟨rfl, fun hs => ⟨⟨?_, ?_⟩, ?_⟩⟩
  · rw [aggregate_headline_sentiment]
    split
    · norm_num
    · exact le_max_left _ _
  · rw [aggregate_headline_sentiment]
    split
    · norm_num
    · exact max_le (by norm_num) (min_le_left _ _)
  · intro hne
    obtain ⟨h, t, rfl⟩ := List.exists_cons_of_ne_nil hne
    have hw : weightTotal (h :: t) = headlineWeight h + weightTotal t := by
      simp [weightTotal]
    rw [hw]
    exact add_pos_of_pos_of_nonneg (headlineWeight_pos h) (weightTotal_nonneg t)

/-- C8: whenever `update_news_calendar` persists rows, no two persisted
rows share the `(datetime, title)` key, the rows are sorted ascending by
datetime, and every surviving event's key is represented by some persisted
row (duplicates collapse to one row rather than disappearing). -/
theorem persisted_calendar_sorted_dedup (now : Nat)
    (fetched holidays rows : List EventRow)
    (h : update_news_calendar now fetched holidays = some rows) :
    rows.Pairwise (fun a b => eventKey a ≠ eventKey b) ∧
    rows.Pairwise (fun a b => dtLe a.datetime b.datetime = true) ∧
    ∀ e ∈ filter_future_events now (fetched ++ holidays),
      ∃ f ∈ rows, eventKey f = eventKey e := by
  by_cases hw : weekdayOfMinutes now ∈ SKIP_DAYS
  · rw [update_news_calendar] at h
    simp [hw] at h
  by_cases hh : hourOfMinutes now < MIN_REQUEST_HOUR
  · rw [update_news_calendar] at h
    simp [hw, hh] at h
  by_cases he : fetched ++ holidays = []
  · rw [update_news_calendar] at h
    simp [hw, hh, he] at h
  by_cases hf : filter_future_events now (fetched ++ holidays) = []
  · rw [update_news_calendar] at h
    simp [hw, hh, he, hf] at h
    subst h
    refine ⟨List.Pairwise.nil, List.Pairwise.nil, ?_⟩
    intro e hme
    rw [hf] at hme
    simp at hme
  · rw [update_news_calendar] at h
    simp only [if_neg hw, if_neg hh, if_neg he, if_neg hf, Option.some.injEq] at h
    subst h
    refine ⟨dedupByKey_pairwise_ne eventKey _, ?_, ?_⟩
    · refine List.Pairwise.sublist (dedupByKey_sublist eventKey _) ?_
      exact @List.sorted_mergeSort EventRow (fun a b => dtLe a.datetime b.datetime)
        (fun a b c hab hbc => dtLe_trans _ _ _ hab hbc)
        (fun a b => dtLe_total _ _) _
    · intro e hme
      exact dedupByKey_key_mem eventKey _ e (List.mem_mergeSort.mpr hme)

unseal List.mergeSort List.merge dedupByKey in
/-- C8 witness: a Thursday 02:00 UTC run whose fetched events contain two
rows with identical `(datetime, title)` persists them sorted and collapsed
to one row per key. -/
theorem persisted_calendar_sorted_dedup_witness :
    ([⟨some 150, "Moderate", "USD", "PMI"⟩, ⟨some 200, "High", "USD", "CPI"⟩]
        : List EventRow).Pairwise (fun a b => eventKey a ≠ eventKey b) ∧
    ([⟨some 150, "Moderate", "USD", "PMI"⟩, ⟨some 200, "High", "USD", "CPI"⟩]
        : List EventRow).Pairwise (fun a b => dtLe a.datetime b.datetime = true) ∧
    ∀ e ∈ filter_future_events 120
      ([⟨some 200, "High", "USD", "CPI"⟩, ⟨some 150, "Moderate", "USD", "PMI"⟩,
        ⟨some 200, "Moderate", "USD", "CPI"⟩] ++ []),
      ∃ f ∈ ([⟨some 150, "Moderate", "USD", "PMI"⟩,
        ⟨some 200, "High", "USD", "CPI"⟩] : List EventRow), eventKey f = eventKey e :=
  persisted_calendar_sorted_dedup 120
    [⟨some 200, "High", "USD", "CPI"⟩, ⟨some 150, "Moderate", "USD", "PMI"⟩,
      ⟨some 200, "Moderate", "USD", "CPI"⟩] []
    [⟨some 150, "Moderate", "USD", "PMI"⟩, ⟨some 200, "High", "USD", "CPI"⟩]
    (by decide)

/-- C9: on a Saturday or Sunday, before 02:00 UTC, or when fetch plus
holiday merge yields no events at all, `update_news_calendar` returns
before any write and `news_calendar.csv` keeps its previous contents. -/
theorem calendar_update_skips_without_write (now : Nat)
    (fetched holidays old : List EventRow)
    (h : weekdayOfMinutes now = 5 ∨ weekdayOfMinutes now = 6 ∨
      hourOfMinutes now < 2 ∨ fetched ++ holidays = []) :
    run_update old now fetched holidays = old := by
  have hnone : update_news_calendar now fetched holidays = none := by
    rw [update_news_calendar]
    rcases h with h | h | h | h
    · simp [SKIP_DAYS, h]
    · simp [SKIP_DAYS, h]
    · by_cases hw : weekdayOfMinutes now ∈ SKIP_DAYS
      · simp [hw]
      · simp [hw, MIN_REQUEST_HOUR, h]
    · by_cases hw : weekdayOfMinutes now ∈ SKIP_DAYS
      · simp [hw]
      · by_cases hh : hourOfMinutes now < MIN_REQUEST_HOUR
        · simp [hw, hh]
        · simp [hw, hh, h]
  simp [run_update, hnone]

/-- C9 witness: a run at the epoch instant (Thursday 1970-01-01 00:00 UTC,
before 02:00) leaves the previously persisted row untouched. -/
theorem calendar_update_skips_without_write_witness :
    run_update [⟨some 5, "High", "USD", "a"⟩] 0 [⟨some 9, "High", "USD", "b"⟩] [] =
      [⟨some 5, "High", "USD", "a"⟩] :=
  calendar_update_skips_without_write 0 [⟨some 9, "High", "USD", "b"⟩] []
    [⟨some 5, "High", "USD", "a"⟩] (Or.inr (Or.inr (Or.inl (by decide))))

end GoldNewsFeed
